import Mathlib

/-!
# doctor-voice-clone: the request handlers of `src/server.js`

A shallow embedding of the three mutating routes of `server.js`
(`POST /clone-voice`, `POST /generate-message`, `POST /delete-voice/:id`)
together with the upload middleware configured in front of the first one.

The process state is the pair of module-level lists `voiceClones` and
`audioMessages`, the content of the `public/uploads` directory and the number
of `Date.now()` readings taken so far.  Three traces are kept next to it so that
statements about effects can be made: the requests sent to the voice provider,
the paths handed to `fs.writeFileSync` and the lines given to `console.error`.

Everything the handlers obtain from outside the process is an explicit input:
the outcome of each provider call, the outcome of each file-system call, the
QR encoder and the clock (a function from the index of the reading to the
millisecond value it returns).

Each handler is given twice.  First from start to finish, as it is written in
the source: this is what the statements about one request are made of.  Then
cut at its `await`s into the stretches that run without interruption: the
process is a sequence of such stretches, in any order in which requests arrive
and awaited calls settle, and the statements about every reachable state are
made of it.  The two agree (`cloneVoice_stretches`, `generateMessage_stretches`,
`deleteVoice_stretches`).
-/

namespace DoctorVoiceClone

/-! ## JavaScript values -/

/-- Truthiness of a request field that is either absent or a string:
`undefined` and the empty string are falsy. -/
def truthy : Option String → Bool
  | none => false
  | some s => !(s == "")

/-- The expression `x || d` where `x` is absent or a string and `d` a string. -/
def orElse (x : Option String) (d : String) : String :=
  match x with
  | none => d
  | some s => if s == "" then d else s

/-- An exception value as seen by the `catch` blocks and the error middleware:
`response?.data` is present for an answer of the provider with an error status,
`message` always, and `isMulterError` tells `error instanceof multer.MulterError`. -/
structure JsError where
  responseData : Option String
  message : String
  isMulterError : Bool
  deriving DecidableEq, Repr

/-- The value logged by the `catch` blocks: `error.response?.data || error.message`. -/
def JsError.diagnostic (e : JsError) : String :=
  orElse e.responseData e.message

/-! ## Data model -/

/-- An element of `voiceClones` (lines 95-101). -/
structure VoiceClone where
  id : String
  name : String
  description : String
  audioFile : String
  createdAt : Nat
  deriving DecidableEq, Repr

/-- An element of `audioMessages` (lines 164-174). -/
structure AudioMessage where
  id : Nat
  voiceId : String
  voiceName : String
  messageText : String
  patientName : String
  audioFileName : String
  audioUrl : String
  qrCode : String
  createdAt : Nat
  deriving DecidableEq, Repr

/-- The `type` field of the `message` local handed to the views. -/
inductive MessageType where
  | error
  | success
  deriving DecidableEq, Repr

/-- The `message` local handed to the views. -/
structure Message where
  type : MessageType
  text : String
  deriving DecidableEq, Repr

/-- What a route sends back: a rendered view with its locals, a redirect, or
the answer of the framework when an error reaches no handler of the file. -/
inductive Response where
  | renderIndex (voiceClones : List VoiceClone) (message : Option Message)
  | renderMessageResult (audioMessage : AudioMessage) (message : Message)
  | renderMessages (audioMessages : List AudioMessage)
  | redirect (url : String)
  | unhandled (error : JsError)
  deriving DecidableEq, Repr

/-- A request sent to the voice provider. -/
inductive ProviderCall where
  | voicesAdd (name description filePath : String)
  | textToSpeech (voiceId text : String)
  | voicesDelete (voiceId : String)
  deriving DecidableEq, Repr

/-- The state of the process and the traces of its effects. -/
structure World where
  voiceClones : List VoiceClone
  audioMessages : List AudioMessage
  files : List (String × List Nat)
  ticks : Nat
  providerCalls : List ProviderCall
  written : List String
  console : List String
  deriving DecidableEq, Repr

/-- The state at process start (lines 50-51): both lists empty, no reading taken. -/
def World.init : World :=
  ⟨[], [], [], 0, [], [], []⟩

/-- The constant `uploadsDir` (line 23). -/
def uploadsDir : String := "public/uploads"

/-- The call `path.join(uploadsDir, name)` for a plain file name. -/
def pathJoin (dir name : String) : String := dir ++ "/" ++ name

/-- The call `Date.now()`: the next reading of the clock. -/
def dateNow (clock : Nat → Nat) (w : World) : Nat × World :=
  (clock w.ticks, { w with ticks := w.ticks + 1 })

/-- Whether a path exists in the uploads directory. -/
def fileExists (w : World) (path : String) : Bool :=
  w.files.any (fun f => f.1 == path)

/-- The call `fs.writeFileSync(path, data)`: throws the error the file system
reports, if any; otherwise the path holds `data`, replacing what it held. -/
def writeFileSync (fault : Option JsError) (w : World) (path : String) (data : List Nat) :
    Except JsError World :=
  match fault with
  | some e => .error e
  | none =>
    .ok { w with
      files := (w.files.filter (fun f => !(f.1 == path))) ++ [(path, data)]
      written := w.written ++ [path] }

/-- The error `fs.unlinkSync` throws for a path that does not exist. -/
def enoent (path : String) : JsError :=
  ⟨none, "ENOENT: no such file or directory, unlink " ++ path, false⟩

/-- The call `fs.unlinkSync(path)`: throws the error the file system reports,
if any, and `ENOENT` for a path that does not exist; otherwise removes it. -/
def unlinkSync (fault : Option JsError) (w : World) (path : String) : Except JsError World :=
  match fault with
  | some e => .error e
  | none =>
    if fileExists w path then
      .ok { w with files := w.files.filter (fun f => !(f.1 == path)) }
    else .error (enoent path)

/-- The call `console.error(label, value)`. -/
def consoleError (w : World) (label value : String) : World :=
  { w with console := w.console ++ [label ++ " " ++ value] }

/-! ## The upload middleware (lines 29-47) -/

/-- The method `String.prototype.startsWith`. -/
def startsWith (s p : String) : Bool := p.data.isPrefixOf s.data

/-- The file part `audioFile` of a multipart request as the middleware sees it. -/
structure UploadPart where
  originalname : String
  mimetype : String
  bytes : List Nat
  deriving DecidableEq, Repr

/-- The object `req.file` of a request whose file part was accepted. -/
structure StagedFile where
  originalname : String
  mimetype : String
  filename : String
  path : String
  deriving DecidableEq, Repr

/-- The error the `fileFilter` callback passes on for a part that is not audio. -/
def onlyAudioError : JsError :=
  ⟨none, "Only audio files are allowed!", false⟩

/-- The middleware `upload.single("audioFile")`: without a file part `req.file`
stays undefined; a part whose `mimetype` starts with `audio/` is written to
`uploadsDir` under `Date.now() + "-" + originalname`; any other part ends the
request with the error of the `fileFilter`. -/
def uploadSingle (clock : Nat → Nat) (w : World) (part : Option UploadPart) :
    World × Except JsError (Option StagedFile) :=
  match part with
  | none => (w, .ok none)
  | some file =>
    if startsWith file.mimetype "audio/" then
      let (t, w1) := dateNow clock w
      let filename := toString t ++ "-" ++ file.originalname
      let path := pathJoin uploadsDir filename
      ({ w1 with files := (w1.files.filter (fun f => !(f.1 == path))) ++ [(path, file.bytes)] },
        .ok (some ⟨file.originalname, file.mimetype, filename, path⟩))
    else (w, .error onlyAudioError)

/-- The error handling middleware (lines 220-228). -/
def errorMiddleware (w : World) (error : JsError) : World × Response :=
  if error.isMulterError then
    (w, .renderIndex w.voiceClones (some ⟨.error, "File upload error: " ++ error.message⟩))
  else (w, .unhandled error)

/-! ## `POST /clone-voice` (lines 62-120) -/

/-- The body fields read by the handler. -/
structure CloneBody where
  doctorName : Option String
  description : Option String
  deriving DecidableEq, Repr

/-- What the handler obtains from outside: the outcome of `POST /voices/add`
(the `voice_id` of the answer, or the error thrown by `axios.post`), the fault
of `fs.unlinkSync` if it has one, and the value of `new Date()`. -/
structure CloneEnv where
  voicesAdd : Except JsError String
  unlinkFault : Option JsError
  now : Nat

/-- The text of the validation message of the handler (line 70). -/
def cloneMissingInput : String := "Please provide doctor name and audio file"

/-- The text of the failure message of the handler (line 117). -/
def cloneFailed : String := "Failed to clone voice. Please try again."

/-- The `catch` block of the handler (lines 113-119). -/
def cloneVoiceCatch (w : World) (error : JsError) : World × Response :=
  let w1 := consoleError w "Voice cloning error:" error.diagnostic
  (w1, .renderIndex w1.voiceClones (some ⟨.error, cloneFailed⟩))

/-- The handler of `POST /clone-voice`, run on `req.body` and `req.file`. -/
def cloneVoice (env : CloneEnv) (w : World) (body : CloneBody) (file : Option StagedFile) :
    World × Response :=
  match file, body.doctorName with
  | some audioFile, some doctorName =>
    if doctorName == "" then
      (w, .renderIndex w.voiceClones (some ⟨.error, cloneMissingInput⟩))
    else
      let description := orElse body.description "Doctor voice clone"
      let w1 := { w with providerCalls :=
        w.providerCalls ++ [.voicesAdd doctorName description audioFile.path] }
      match env.voicesAdd with
      | .error e => cloneVoiceCatch w1 e
      | .ok voiceId =>
        let voiceClone : VoiceClone :=
          ⟨voiceId, doctorName, description, audioFile.filename, env.now⟩
        let w2 := { w1 with voiceClones := w1.voiceClones ++ [voiceClone] }
        match unlinkSync env.unlinkFault w2 audioFile.path with
        | .error e => cloneVoiceCatch w2 e
        | .ok w3 =>
          (w3, .renderIndex w3.voiceClones
            (some ⟨.success, "Voice clone created successfully! Voice ID: " ++ voiceId⟩))
  | _, _ => (w, .renderIndex w.voiceClones (some ⟨.error, cloneMissingInput⟩))

/-- The route `POST /clone-voice`: the upload middleware, then the handler, or
the error middleware when the upload was refused. -/
def postCloneVoice (clock : Nat → Nat) (env : CloneEnv) (w : World) (body : CloneBody)
    (part : Option UploadPart) : World × Response :=
  match uploadSingle clock w part with
  | (w1, .error e) => errorMiddleware w1 e
  | (w1, .ok file) => cloneVoice env w1 body file

/-! ## `POST /generate-message` (lines 123-190) -/

/-- The body fields read by the handler, with `req.protocol` and `req.get("host")`. -/
structure GenerateRequest where
  voiceId : Option String
  messageText : Option String
  patientName : Option String
  protocol : String
  host : Option String
  deriving DecidableEq, Repr

/-- What the handler obtains from outside: the outcome of
`POST /text-to-speech/:voiceId` (the bytes of the answer, or the error thrown
by `axios.post`), the fault of `fs.writeFileSync` if it has one, the encoder
`QRCode.toDataURL` and the value of `new Date()`. -/
structure GenerateEnv where
  textToSpeech : Except JsError (List Nat)
  writeFault : Option JsError
  toDataURL : String → Except JsError String
  now : Nat

/-- The text of the validation message of the handler (line 130). -/
def generateMissingInput : String := "Please select a voice and provide message text"

/-- The text of the failure message of the handler (line 187). -/
def generateFailed : String := "Failed to generate voice message. Please try again."

/-- The `catch` block of the handler (lines 183-189). -/
def generateMessageCatch (w : World) (error : JsError) : World × Response :=
  let w1 := consoleError w "Message generation error:" error.diagnostic
  (w1, .renderIndex w1.voiceClones (some ⟨.error, generateFailed⟩))

/-- The expression `voiceClones.find(v => v.id === voiceId)?.name || "Unknown"`
(line 167). -/
def findVoiceName (voiceClones : List VoiceClone) (voiceId : String) : String :=
  orElse ((voiceClones.find? (fun v => v.id == voiceId)).map (fun v => v.name)) "Unknown"

/-- The file name of line 155 for a clock reading. -/
def messageFileName (t : Nat) : String := "message-" ++ toString t ++ ".mp3"

/-- The handler of `POST /generate-message`. -/
def generateMessage (clock : Nat → Nat) (env : GenerateEnv) (w : World) (req : GenerateRequest) :
    World × Response :=
  match req.voiceId, req.messageText with
  | some voiceId, some messageText =>
    if voiceId == "" || messageText == "" then
      (w, .renderIndex w.voiceClones (some ⟨.error, generateMissingInput⟩))
    else
      let w1 := { w with providerCalls := w.providerCalls ++ [.textToSpeech voiceId messageText] }
      match env.textToSpeech with
      | .error e => generateMessageCatch w1 e
      | .ok data =>
        let (t1, w2) := dateNow clock w1
        let audioFileName := messageFileName t1
        let audioFilePath := pathJoin uploadsDir audioFileName
        match writeFileSync env.writeFault w2 audioFilePath data with
        | .error e => generateMessageCatch w2 e
        | .ok w3 =>
          let audioUrl :=
            req.protocol ++ "://" ++ req.host.getD "undefined" ++ "/uploads/" ++ audioFileName
          match env.toDataURL audioUrl with
          | .error e => generateMessageCatch w3 e
          | .ok qrCode =>
            let (t2, w4) := dateNow clock w3
            let audioMessage : AudioMessage :=
              ⟨t2, voiceId, findVoiceName w4.voiceClones voiceId, messageText,
                orElse req.patientName "Patient", audioFileName, audioUrl, qrCode, env.now⟩
            let w5 := { w4 with audioMessages := w4.audioMessages ++ [audioMessage] }
            (w5, .renderMessageResult audioMessage
              ⟨.success, "Voice message generated successfully!"⟩)
  | _, _ => (w, .renderIndex w.voiceClones (some ⟨.error, generateMissingInput⟩))

/-! ## `POST /delete-voice/:id` (lines 198-217) -/

/-- The handler of `POST /delete-voice/:id`, run on `req.params.id` and the
outcome of `DELETE /voices/:id` (the error thrown by `axios.delete`, if any). -/
def deleteVoice (fault : Option JsError) (w : World) (voiceId : String) : World × Response :=
  let w1 := { w with providerCalls := w.providerCalls ++ [.voicesDelete voiceId] }
  match fault with
  | some e =>
    (consoleError w1 "Delete voice error:" e.diagnostic, .redirect "/?error=delete_failed")
  | none =>
    ({ w1 with voiceClones := w1.voiceClones.filter (fun voice => voice.id != voiceId) },
      .redirect "/?deleted=true")

/-! ## The handlers between two `await`s

A handler gives up control at each `await`; other handlers may run before it
goes on.  The pieces below are the stretches of the three handlers that run
without interruption. -/

/-- A handler suspended at an `await`, with the local variables it reads
afterwards: at the provider call of CloneVoice (line 81), at the provider call
of GenerateMessage (line 135), at the encoding of the address (line 161) and at
the provider call of DeleteVoice (line 203). -/
inductive Suspended where
  | voicesAdd (doctorName description : String) (audioFile : StagedFile)
  | textToSpeech (req : GenerateRequest) (voiceId messageText : String)
  | toDataURL (req : GenerateRequest) (voiceId messageText audioFileName audioUrl : String)
  | voicesDelete (voiceId : String)
  deriving DecidableEq, Repr

/-- What an awaited call settles with, together with what the code that runs
next obtains from outside (file-system faults, the value of `new Date()`). -/
inductive Settlement where
  | voicesAdd (result : Except JsError String) (unlinkFault : Option JsError) (now : Nat)
  | textToSpeech (result : Except JsError (List Nat)) (writeFault : Option JsError)
  | toDataURL (result : Except JsError String) (now : Nat)
  | voicesDelete (fault : Option JsError)

/-- CloneVoice from its start to the `await` of the provider call (lines 63-90). -/
def cloneVoiceBegin (w : World) (body : CloneBody) (file : Option StagedFile) :
    World × Sum Response Suspended :=
  match file, body.doctorName with
  | some audioFile, some doctorName =>
    if doctorName == "" then
      (w, .inl (.renderIndex w.voiceClones (some ⟨.error, cloneMissingInput⟩)))
    else
      let description := orElse body.description "Doctor voice clone"
      ({ w with providerCalls :=
          w.providerCalls ++ [.voicesAdd doctorName description audioFile.path] },
        .inr (.voicesAdd doctorName description audioFile))
  | _, _ => (w, .inl (.renderIndex w.voiceClones (some ⟨.error, cloneMissingInput⟩)))

/-- CloneVoice from the settlement of the provider call to its response
(lines 92-119). -/
def cloneVoiceResume (result : Except JsError String) (unlinkFault : Option JsError) (now : Nat)
    (w : World) (doctorName description : String) (audioFile : StagedFile) : World × Response :=
  match result with
  | .error e => cloneVoiceCatch w e
  | .ok voiceId =>
    let voiceClone : VoiceClone := ⟨voiceId, doctorName, description, audioFile.filename, now⟩
    let w2 := { w with voiceClones := w.voiceClones ++ [voiceClone] }
    match unlinkSync unlinkFault w2 audioFile.path with
    | .error e => cloneVoiceCatch w2 e
    | .ok w3 =>
      (w3, .renderIndex w3.voiceClones
        (some ⟨.success, "Voice clone created successfully! Voice ID: " ++ voiceId⟩))

/-- GenerateMessage from its start to the `await` of the provider call
(lines 125-152). -/
def generateMessageBegin (w : World) (req : GenerateRequest) : World × Sum Response Suspended :=
  match req.voiceId, req.messageText with
  | some voiceId, some messageText =>
    if voiceId == "" || messageText == "" then
      (w, .inl (.renderIndex w.voiceClones (some ⟨.error, generateMissingInput⟩)))
    else
      ({ w with providerCalls := w.providerCalls ++ [.textToSpeech voiceId messageText] },
        .inr (.textToSpeech req voiceId messageText))
  | _, _ => (w, .inl (.renderIndex w.voiceClones (some ⟨.error, generateMissingInput⟩)))

/-- GenerateMessage from the settlement of the provider call to the `await` of
the encoding (lines 154-161). -/
def generateMessageSpeech (clock : Nat → Nat) (result : Except JsError (List Nat))
    (writeFault : Option JsError) (w : World) (req : GenerateRequest)
    (voiceId messageText : String) : World × Sum Response Suspended :=
  match result with
  | .error e => ((generateMessageCatch w e).1, .inl (generateMessageCatch w e).2)
  | .ok data =>
    let (t1, w2) := dateNow clock w
    let audioFileName := messageFileName t1
    let audioFilePath := pathJoin uploadsDir audioFileName
    match writeFileSync writeFault w2 audioFilePath data with
    | .error e => ((generateMessageCatch w2 e).1, .inl (generateMessageCatch w2 e).2)
    | .ok w3 =>
      let audioUrl :=
        req.protocol ++ "://" ++ req.host.getD "undefined" ++ "/uploads/" ++ audioFileName
      (w3, .inr (.toDataURL req voiceId messageText audioFileName audioUrl))

/-- GenerateMessage from the settlement of the encoding to its response
(lines 163-189). -/
def generateMessageEncoded (clock : Nat → Nat) (result : Except JsError String) (now : Nat)
    (w : World) (req : GenerateRequest) (voiceId messageText audioFileName audioUrl : String) :
    World × Response :=
  match result with
  | .error e => generateMessageCatch w e
  | .ok qrCode =>
    let (t2, w4) := dateNow clock w
    let audioMessage : AudioMessage :=
      ⟨t2, voiceId, findVoiceName w4.voiceClones voiceId, messageText,
        orElse req.patientName "Patient", audioFileName, audioUrl, qrCode, now⟩
    let w5 := { w4 with audioMessages := w4.audioMessages ++ [audioMessage] }
    (w5, .renderMessageResult audioMessage ⟨.success, "Voice message generated successfully!"⟩)

/-- DeleteVoice from its start to the `await` of the provider call
(lines 200-207). -/
def deleteVoiceBegin (w : World) (voiceId : String) : World × Suspended :=
  ({ w with providerCalls := w.providerCalls ++ [.voicesDelete voiceId] }, .voicesDelete voiceId)

/-- DeleteVoice from the settlement of the provider call to its response
(lines 209-216). -/
def deleteVoiceResume (fault : Option JsError) (w : World) (voiceId : String) :
    World × Response :=
  match fault with
  | some e =>
    (consoleError w "Delete voice error:" e.diagnostic, .redirect "/?error=delete_failed")
  | none =>
    ({ w with voiceClones := w.voiceClones.filter (fun voice => voice.id != voiceId) },
      .redirect "/?deleted=true")

/-- A suspended handler goes on with the settlement of the call it awaits; a
settlement of another call does not concern it. -/
def resume (clock : Nat → Nat) (w : World) :
    Suspended → Settlement → Option (World × Sum Response Suspended)
  | .voicesAdd doctorName description audioFile, .voicesAdd result unlinkFault now =>
    some ((cloneVoiceResume result unlinkFault now w doctorName description audioFile).1,
      .inl (cloneVoiceResume result unlinkFault now w doctorName description audioFile).2)
  | .textToSpeech req voiceId messageText, .textToSpeech result writeFault =>
    some (generateMessageSpeech clock result writeFault w req voiceId messageText)
  | .toDataURL req voiceId messageText audioFileName audioUrl, .toDataURL result now =>
    some ((generateMessageEncoded clock result now w req voiceId messageText audioFileName
        audioUrl).1,
      .inl (generateMessageEncoded clock result now w req voiceId messageText audioFileName
        audioUrl).2)
  | .voicesDelete voiceId, .voicesDelete fault =>
    some ((deleteVoiceResume fault w voiceId).1, .inl (deleteVoiceResume fault w voiceId).2)
  | _, _ => none

/-! ## The process -/

/-- The process between two stretches of handler code: its state and the
handlers that wait for a call to settle. -/
structure Process where
  world : World
  suspended : List Suspended

/-- The process at its start. -/
def Process.init : Process := ⟨World.init, []⟩

/-- What happens to the process: a request arrives and its handler runs to its
first `await` or to its response, or the call awaited by the suspended handler
at position `k` settles and that handler runs on. -/
inductive Event where
  | getIndex
  | getMessages
  | cloneVoice (body : CloneBody) (part : Option UploadPart)
  | generateMessage (req : GenerateRequest)
  | deleteVoice (voiceId : String)
  | settle (k : Nat) (settlement : Settlement)

/-- The process after a stretch of handler code: the handler has answered, or
it joins the suspended ones. -/
def suspend (rest : List Suspended) (r : World × Sum Response Suspended) : Process :=
  match r.2 with
  | .inl _ => ⟨r.1, rest⟩
  | .inr task => ⟨r.1, rest ++ [task]⟩

/-- One event of the process.  The upload middleware and the start of the
handler of CloneVoice are taken as one stretch. -/
def step (clock : Nat → Nat) (p : Process) : Event → Process
  | .getIndex => p
  | .getMessages => p
  | .cloneVoice body part =>
    match uploadSingle clock p.world part with
    | (w1, .error e) => ⟨(errorMiddleware w1 e).1, p.suspended⟩
    | (w1, .ok file) => suspend p.suspended (cloneVoiceBegin w1 body file)
  | .generateMessage req => suspend p.suspended (generateMessageBegin p.world req)
  | .deleteVoice voiceId =>
    ⟨(deleteVoiceBegin p.world voiceId).1, p.suspended ++ [(deleteVoiceBegin p.world voiceId).2]⟩
  | .settle k settlement =>
    match p.suspended[k]? with
    | none => p
    | some task =>
      match resume clock p.world task settlement with
      | none => p
      | some r => suspend (p.suspended.eraseIdx k) r

/-- The process after a list of events. -/
def run (clock : Nat → Nat) (p : Process) (events : List Event) : Process :=
  events.foldl (step clock) p

/-- Whether a response reports a failure to the caller: a view rendered with a
message of type `error`, or the redirect to the error address. -/
def Response.isFailure : Response → Bool
  | .renderIndex _ (some m) => m.type == MessageType.error
  | .redirect url => url == "/?error=delete_failed"
  | _ => false

/-! ## Concrete requests -/

/-- A clock that advances by one millisecond at every reading. -/
def tickingClock : Nat → Nat := fun i => 1000 + i

/-- A clock that returns the same millisecond at every reading. -/
def frozenClock : Nat → Nat := fun _ => 1000

/-- An audio file part. -/
def wavPart : UploadPart := ⟨"a.wav", "audio/wav", [82, 73, 70, 70]⟩

/-- The file `req.file` of a request whose part `wavPart` was staged at reading 1000. -/
def wavStaged : StagedFile :=
  ⟨"a.wav", "audio/wav", "1000-a.wav", "public/uploads/1000-a.wav"⟩

/-- The body of Scenario A of the specification. -/
def smithBody : CloneBody := ⟨some "Dr. Smith", some ""⟩

/-- An error of the provider with an answer body. -/
def providerError : JsError :=
  ⟨some "detail: invalid_api_key", "Request failed with status code 401", false⟩

/-- An error of the file system. -/
def permissionError : JsError := ⟨none, "EPERM: operation not permitted", false⟩

/-- An encoder that accepts every address. -/
def plainEncoder : String → Except JsError String :=
  fun address => .ok ("data:image/png;" ++ address)

/-- A GenerateMessage request for voice `v1`. -/
def tabletsRequest : GenerateRequest :=
  ⟨some "v1", some "Take two tablets daily.", some "Jane Doe", "http", some "localhost:3000"⟩

/-- An environment in which every step of GenerateMessage succeeds. -/
def generateOk : GenerateEnv := ⟨.ok [73, 68, 51], none, plainEncoder, 0⟩

/-- Two GenerateMessage requests served one after the other, each with a
provider call, a file write and an encoding that succeed. -/
def twoGenerations : List Event :=
  [.generateMessage tabletsRequest,
    .settle 0 (.textToSpeech (.ok [73, 68, 51]) none),
    .settle 0 (.toDataURL (.ok "data:image/png;first") 0),
    .generateMessage tabletsRequest,
    .settle 0 (.textToSpeech (.ok [1, 2, 3]) none),
    .settle 0 (.toDataURL (.ok "data:image/png;second") 0)]

/-- Two GenerateMessage requests in flight at the same time: both provider
calls settle before either encoding does. -/
def overlappingGenerations : List Event :=
  [.generateMessage tabletsRequest,
    .generateMessage tabletsRequest,
    .settle 0 (.textToSpeech (.ok [73, 68, 51]) none),
    .settle 0 (.textToSpeech (.ok [1, 2, 3]) none),
    .settle 0 (.toDataURL (.ok "data:image/png;first") 0),
    .settle 0 (.toDataURL (.ok "data:image/png;second") 0)]

/-! ## Definitions used in the proofs -/

/-- The value of a decimal digit character. -/
def digitValue (c : Char) : Nat := c.toNat - 48

/-- The number a list of decimal digit characters stands for. -/
def decodeDigits (cs : List Char) : Nat :=
  cs.foldl (fun acc c => acc * 10 + digitValue c) 0

/-- The effect of a stretch of handler code on `audioMessages`, on the trace of
written paths and on the number of clock readings: no reading is given back; at
most one message is appended, with a reading taken during the stretch as its
id; at most one path is written, named after a reading taken during the
stretch. -/
def StepEffect (clock : Nat → Nat) (w r : World) : Prop :=
  w.ticks ≤ r.ticks ∧
    (r.audioMessages = w.audioMessages ∨
      ∃ m i, r.audioMessages = w.audioMessages ++ [m] ∧ m.id = clock i ∧
        w.ticks ≤ i ∧ i < r.ticks) ∧
    (r.written = w.written ∨
      ∃ i, r.written = w.written ++ [pathJoin uploadsDir (messageFileName (clock i))] ∧
        w.ticks ≤ i ∧ i < r.ticks)

/-- The ids of `audioMessages` increase along the list and each of them is a
reading already taken. -/
def IdsInvariant (clock : Nat → Nat) (w : World) : Prop :=
  (w.audioMessages.map (fun m => m.id)).Pairwise (fun a b => a < b) ∧
    ∀ m ∈ w.audioMessages, ∃ i, i < w.ticks ∧ m.id = clock i

/-- The written paths are the message paths of readings already taken, at
increasing positions of the clock. -/
def WrittenInvariant (clock : Nat → Nat) (w : World) : Prop :=
  ∃ readings : List Nat,
    w.written = readings.map (fun i => pathJoin uploadsDir (messageFileName (clock i))) ∧
      readings.Pairwise (fun a b => a < b) ∧ ∀ i ∈ readings, i < w.ticks

/-- Every name in `voiceClones` is non-empty, and so is the name held by every
handler of CloneVoice that waits for the provider. -/
def NamesInvariant (p : Process) : Prop :=
  (∀ voice ∈ p.world.voiceClones, voice.name ≠ "") ∧
    ∀ doctorName description audioFile,
      Suspended.voicesAdd doctorName description audioFile ∈ p.suspended → doctorName ≠ ""

/-! ## Properties of single requests -/

theorem filter_bne_eq (voiceClones : List VoiceClone) (X : String) :
    voiceClones.filter (fun voice => voice.id != X)
      = voiceClones.filter (fun voice => decide (voice.id ≠ X)) := by
  congr 1
  funext voice
  by_cases h : voice.id = X <;> simp [h]

theorem deleteVoice_registry_aux (w : World) (X : String) :
    (deleteVoice none w X).1.voiceClones
        = w.voiceClones.filter (fun voice => decide (voice.id ≠ X)) ∧
      ∀ voice ∈ (deleteVoice none w X).1.voiceClones, voice.id ≠ X := by
  have hfilter : (deleteVoice none w X).1.voiceClones
      = w.voiceClones.filter (fun voice => decide (voice.id ≠ X)) := by
    simp only [deleteVoice]
    exact filter_bne_eq w.voiceClones X
  refine ⟨hfilter, ?_⟩
  intro voice hvoice
  rw [hfilter, List.mem_filter] at hvoice
  simpa using hvoice.2

/-- C3: `DeleteVoice(X)` with a provider call that succeeds leaves in `voiceClones`
exactly the entries whose id differs from `X`, in their original order, so that
no entry with id `X` remains; with a provider call that fails it leaves
`voiceClones` as it was; in both cases `audioMessages` is as it was. -/
theorem deleteVoice_registry (w : World) (X : String) :
    ((deleteVoice none w X).1.voiceClones
        = w.voiceClones.filter (fun voice => decide (voice.id ≠ X)) ∧
      (∀ voice, voice ∈ (deleteVoice none w X).1.voiceClones
        ↔ voice ∈ w.voiceClones ∧ voice.id ≠ X) ∧
      (∀ voice ∈ (deleteVoice none w X).1.voiceClones, voice.id ≠ X) ∧
      ((deleteVoice none w X).1.voiceClones).Sublist w.voiceClones ∧
      (deleteVoice none w X).1.audioMessages = w.audioMessages ∧
      (deleteVoice none w X).2 = .redirect "/?deleted=true") ∧
    (∀ e : JsError,
      (deleteVoice (some e) w X).1.voiceClones = w.voiceClones ∧
      (deleteVoice (some e) w X).1.audioMessages = w.audioMessages ∧
      (deleteVoice (some e) w X).2 = .redirect "/?error=delete_failed") := by
  have hfilter : (deleteVoice none w X).1.voiceClones
      = w.voiceClones.filter (fun voice => decide (voice.id ≠ X)) := by
    simp only [deleteVoice]
    exact filter_bne_eq w.voiceClones X
  refine ⟨⟨hfilter, ?_, ?_, ?_, rfl, rfl⟩, fun e => ⟨rfl, rfl, rfl⟩⟩
  · intro voice
    rw [hfilter, List.mem_filter]
    simp
  · intro voice hvoice
    rw [hfilter, List.mem_filter] at hvoice
    simpa using hvoice.2
  · rw [hfilter]
    exact List.filter_sublist _

/-- C4: a CloneVoice request whose `doctorName` is missing or empty, or whose
audio attachment is absent, gets the validation message; the handler leaves the
whole state as it was, so `voiceClones` is unchanged and no request was sent to
the voice provider. -/
theorem cloneVoice_missing_input (env : CloneEnv) (w : World) (body : CloneBody)
    (file : Option StagedFile)
    (h : body.doctorName = none ∨ body.doctorName = some "" ∨ file = none) :
    (cloneVoice env w body file).2
        = .renderIndex w.voiceClones (some ⟨.error, cloneMissingInput⟩) ∧
      (cloneVoice env w body file).1 = w ∧
      (cloneVoice env w body file).1.voiceClones = w.voiceClones ∧
      (cloneVoice env w body file).1.providerCalls = w.providerCalls := by
  have key : cloneVoice env w body file
      = (w, .renderIndex w.voiceClones (some ⟨.error, cloneMissingInput⟩)) := by
    rcases h with h | h | h
    · cases file <;> simp [cloneVoice, h]
    · cases file <;> simp [cloneVoice, h]
    · subst h
      simp [cloneVoice]
  rw [key]
  exact ⟨rfl, rfl, rfl, rfl⟩

/-- The route of CloneVoice on a request without a file part: the validation
message, and the state as it was. -/
theorem postCloneVoice_without_file (clock : Nat → Nat) (env : CloneEnv) (w : World)
    (body : CloneBody) :
    postCloneVoice clock env w body none
      = (w, .renderIndex w.voiceClones (some ⟨.error, cloneMissingInput⟩)) := by
  simp [postCloneVoice, uploadSingle, cloneVoice]

/-- C5: a GenerateMessage request whose `voiceId` or `messageText` is missing or
empty gets the missing-input message; the handler leaves the whole state as it
was, so `audioMessages` is unchanged, no request was sent to the voice provider
and no file was written. -/
theorem generateMessage_missing_input (clock : Nat → Nat) (env : GenerateEnv) (w : World)
    (req : GenerateRequest)
    (h : req.voiceId = none ∨ req.voiceId = some "" ∨
      req.messageText = none ∨ req.messageText = some "") :
    (generateMessage clock env w req).2
        = .renderIndex w.voiceClones (some ⟨.error, generateMissingInput⟩) ∧
      (generateMessage clock env w req).1 = w ∧
      (generateMessage clock env w req).1.audioMessages = w.audioMessages ∧
      (generateMessage clock env w req).1.providerCalls = w.providerCalls ∧
      (generateMessage clock env w req).1.written = w.written ∧
      (generateMessage clock env w req).1.files = w.files := by
  have key : generateMessage clock env w req
      = (w, .renderIndex w.voiceClones (some ⟨.error, generateMissingInput⟩)) := by
    rcases h with h | h | h | h
    · simp [generateMessage, h]
    · cases hm : req.messageText <;> simp [generateMessage, h, hm]
    · cases hv : req.voiceId <;> simp [generateMessage, h, hv]
    · cases hv : req.voiceId <;> simp [generateMessage, h, hv]
  rw [key]
  exact ⟨rfl, rfl, rfl, rfl, rfl, rfl⟩

theorem cloneVoice_push (env : CloneEnv) (w : World) (body : CloneBody)
    (doctorName V : String) (audioFile : StagedFile)
    (hname : body.doctorName = some doctorName) (hne : doctorName ≠ "")
    (hprov : env.voicesAdd = .ok V) :
    (cloneVoice env w body (some audioFile)).1.voiceClones
        = w.voiceClones ++
          [⟨V, doctorName, orElse body.description "Doctor voice clone",
            audioFile.filename, env.now⟩] ∧
      (cloneVoice env w body (some audioFile)).1.audioMessages = w.audioMessages := by
  cases hu : env.unlinkFault with
  | some e => simp [cloneVoice, hname, hne, hprov, unlinkSync, hu, cloneVoiceCatch, consoleError]
  | none =>
    by_cases hx : fileExists { w with
        providerCalls := w.providerCalls ++
          [.voicesAdd doctorName (orElse body.description "Doctor voice clone") audioFile.path]
        voiceClones := w.voiceClones ++
          [⟨V, doctorName, orElse body.description "Doctor voice clone",
            audioFile.filename, env.now⟩] } audioFile.path = true
    · simp [cloneVoice, hname, hne, hprov, unlinkSync, hu, hx]
    · simp [cloneVoice, hname, hne, hprov, unlinkSync, hu, hx, cloneVoiceCatch, consoleError]

/-- C6: a CloneVoice request with a non-empty `doctorName` and a present audio
attachment whose provider call succeeds with voice id `V` appends exactly one
entry at the end of `voiceClones`; its id is `V`, its name is `doctorName` and
its description is the one supplied, or `Doctor voice clone` when the
description is missing or empty. -/
theorem cloneVoice_appends (env : CloneEnv) (w : World) (body : CloneBody)
    (file : Option StagedFile) (doctorName V : String) (audioFile : StagedFile)
    (hname : body.doctorName = some doctorName) (hne : doctorName ≠ "")
    (hfile : file = some audioFile) (hprov : env.voicesAdd = .ok V) :
    (cloneVoice env w body file).1.voiceClones
        = w.voiceClones ++
          [⟨V, doctorName,
            if body.description = none ∨ body.description = some "" then "Doctor voice clone"
            else body.description.getD "",
            audioFile.filename, env.now⟩] ∧
      (cloneVoice env w body file).1.audioMessages = w.audioMessages := by
  subst hfile
  have hdesc : orElse body.description "Doctor voice clone"
      = if body.description = none ∨ body.description = some "" then "Doctor voice clone"
        else body.description.getD "" := by
    cases hd : body.description with
    | none => simp [orElse]
    | some d => by_cases hd' : d = "" <;> simp [orElse, hd']
  rw [← hdesc]
  exact cloneVoice_push env w body doctorName V audioFile hname hne hprov

/-- C7: with every name in `voiceClones` non-empty, the voice-name lookup of
GenerateMessage yields the name of the first entry whose id equals `voiceId`
when there is one and `Unknown` when there is none; it yields `Unknown` for
the id `X` after a DeleteVoice of `X` whose provider call succeeded. -/
theorem findVoiceName_first_or_unknown (voiceClones : List VoiceClone) (voiceId : String)
    (hnames : ∀ voice ∈ voiceClones, voice.name ≠ "") :
    (∀ before voice after, voiceClones = before ++ voice :: after →
        (∀ other ∈ before, other.id ≠ voiceId) → voice.id = voiceId →
        findVoiceName voiceClones voiceId = voice.name) ∧
      ((∀ voice ∈ voiceClones, voice.id ≠ voiceId) →
        findVoiceName voiceClones voiceId = "Unknown") ∧
      (∀ w : World, w.voiceClones = voiceClones →
        findVoiceName (deleteVoice none w voiceId).1.voiceClones voiceId = "Unknown") := by
  have absent : ∀ l : List VoiceClone, (∀ voice ∈ l, voice.id ≠ voiceId) →
      findVoiceName l voiceId = "Unknown" := by
    intro l hl
    have hfind : l.find? (fun v => v.id == voiceId) = none := by
      rw [List.find?_eq_none]
      intro voice hvoice
      simpa using hl voice hvoice
    simp [findVoiceName, hfind, orElse]
  refine ⟨?_, absent voiceClones, ?_⟩
  · intro before voice after hsplit hbefore hid
    have hfind : voiceClones.find? (fun v => v.id == voiceId) = some voice := by
      rw [hsplit, List.find?_append]
      have hnone : before.find? (fun v => v.id == voiceId) = none := by
        rw [List.find?_eq_none]
        intro other hother
        simpa using hbefore other hother
      simp [hnone, hid]
    have hne : voice.name ≠ "" := hnames voice (by rw [hsplit]; simp)
    simp [findVoiceName, hfind, orElse, hne]
  · intro w _
    apply absent
    intro voice hvoice
    exact ((deleteVoice_registry_aux w voiceId).2 voice hvoice)

/-- C10: for CloneVoice and for GenerateMessage the response does not depend on
the error of the provider call: two failures of the provider on the same
request and state get the same response, and on a request that passes
validation this response is the index view with the fixed failure text of the
route, in which no part of the error occurs. -/
theorem provider_failure_response_generic (clock : Nat → Nat) (w : World) (e1 e2 : JsError) :
    (∀ (unlinkFault : Option JsError) (now : Nat) (body : CloneBody) (file : Option StagedFile),
      (cloneVoice ⟨.error e1, unlinkFault, now⟩ w body file).2
          = (cloneVoice ⟨.error e2, unlinkFault, now⟩ w body file).2 ∧
        (truthy body.doctorName = true → file.isSome = true →
          (cloneVoice ⟨.error e1, unlinkFault, now⟩ w body file).2
            = .renderIndex w.voiceClones (some ⟨.error, cloneFailed⟩))) ∧
    (∀ (writeFault : Option JsError) (toDataURL : String → Except JsError String) (now : Nat)
        (req : GenerateRequest),
      (generateMessage clock ⟨.error e1, writeFault, toDataURL, now⟩ w req).2
          = (generateMessage clock ⟨.error e2, writeFault, toDataURL, now⟩ w req).2 ∧
        (truthy req.voiceId = true → truthy req.messageText = true →
          (generateMessage clock ⟨.error e1, writeFault, toDataURL, now⟩ w req).2
            = .renderIndex w.voiceClones (some ⟨.error, generateFailed⟩))) := by
  constructor
  · intro unlinkFault now body file
    cases file with
    | none => simp [cloneVoice]
    | some audioFile =>
      cases hd : body.doctorName with
      | none => simp [cloneVoice, hd, truthy]
      | some d =>
        by_cases hd' : d = ""
        · simp [cloneVoice, hd, hd', truthy]
        · simp [cloneVoice, hd, hd', truthy, cloneVoiceCatch, consoleError]
  · intro writeFault toDataURL now req
    cases hv : req.voiceId with
    | none => simp [generateMessage, hv, truthy]
    | some v =>
      cases hm : req.messageText with
      | none => simp [generateMessage, hv, hm, truthy]
      | some m =>
        by_cases hv' : v = ""
        · simp [generateMessage, hv, hm, hv', truthy]
        · by_cases hm' : m = ""
          · simp [generateMessage, hv, hm, hm', truthy]
          · simp [generateMessage, hv, hm, hv', hm', truthy, generateMessageCatch, consoleError]

/-! ## The staged file and the registry on the failure paths of CloneVoice -/

/-- C1: the staged file of a CloneVoice request is still in the uploads
directory when the handler has finished with the validation message (empty
`doctorName`) and when it has finished with the failure message after an error
of the provider; it is gone after a request that succeeds. -/
theorem cloneVoice_staged_file_survives_failure :
    fileExists (postCloneVoice tickingClock ⟨.ok "v1", none, 0⟩ World.init
        ⟨some "", none⟩ (some wavPart)).1 "public/uploads/1000-a.wav" = true ∧
      fileExists (postCloneVoice tickingClock ⟨.error providerError, none, 0⟩ World.init
        smithBody (some wavPart)).1 "public/uploads/1000-a.wav" = true ∧
      fileExists (postCloneVoice tickingClock ⟨.ok "v1", none, 0⟩ World.init
        smithBody (some wavPart)).1 "public/uploads/1000-a.wav" = false := by
  decide

/-- C2: a CloneVoice request whose provider call succeeds and whose
`fs.unlinkSync` throws ends with the failure message, and `voiceClones` has the
new entry all the same. -/
theorem cloneVoice_failure_after_push :
    (postCloneVoice tickingClock ⟨.ok "v1", some permissionError, 0⟩ World.init
        smithBody (some wavPart)).2
      = .renderIndex [⟨"v1", "Dr. Smith", "Doctor voice clone", "1000-a.wav", 0⟩]
          (some ⟨.error, cloneFailed⟩) ∧
    (postCloneVoice tickingClock ⟨.ok "v1", some permissionError, 0⟩ World.init
        smithBody (some wavPart)).2.isFailure = true ∧
    (postCloneVoice tickingClock ⟨.ok "v1", some permissionError, 0⟩ World.init
        smithBody (some wavPart)).1.voiceClones
      = [⟨"v1", "Dr. Smith", "Doctor voice clone", "1000-a.wav", 0⟩] ∧
    (postCloneVoice tickingClock ⟨.ok "v1", some permissionError, 0⟩ World.init
        smithBody (some wavPart)).1.voiceClones ≠ World.init.voiceClones := by
  decide

theorem unlinkSync_ok {fault : Option JsError} {w w3 : World} {path : String}
    (h : unlinkSync fault w path = .ok w3) :
    w3.voiceClones = w.voiceClones ∧ w3.audioMessages = w.audioMessages ∧
      w3.ticks = w.ticks ∧ w3.written = w.written ∧ w3.providerCalls = w.providerCalls := by
  cases fault with
  | some e => simp [unlinkSync] at h
  | none =>
    by_cases hx : fileExists w path = true
    · simp only [unlinkSync, hx, if_true, Except.ok.injEq] at h
      subst h
      exact ⟨rfl, rfl, rfl, rfl, rfl⟩
    · simp [unlinkSync, hx] at h

/-- On the two failure paths that come before the deletion, the handler of
CloneVoice leaves the content of the uploads directory as it found it. -/
theorem cloneVoice_failure_keeps_files (env : CloneEnv) (w : World) (body : CloneBody)
    (audioFile : StagedFile)
    (h : truthy body.doctorName = false ∨ ∃ e, env.voicesAdd = .error e) :
    (cloneVoice env w body (some audioFile)).1.files = w.files := by
  cases hd : body.doctorName with
  | none => simp [cloneVoice, hd]
  | some d =>
    by_cases hd' : d = ""
    · simp [cloneVoice, hd, hd']
    · rcases h with h | ⟨e, he⟩
      · simp [truthy, hd, hd'] at h
      · simp [cloneVoice, hd, hd', he, cloneVoiceCatch, consoleError]

/-- A failure reported by GenerateMessage or DeleteVoice leaves both lists as
they were; a failure reported by CloneVoice leaves `audioMessages` as it was,
and `voiceClones` too unless the provider call had succeeded. -/
theorem failure_keeps_registry (clock : Nat → Nat) (w : World) :
    (∀ (env : GenerateEnv) (req : GenerateRequest),
      (generateMessage clock env w req).2.isFailure = true →
        (generateMessage clock env w req).1.voiceClones = w.voiceClones ∧
        (generateMessage clock env w req).1.audioMessages = w.audioMessages) ∧
    (∀ (fault : Option JsError) (voiceId : String),
      (deleteVoice fault w voiceId).2.isFailure = true →
        (deleteVoice fault w voiceId).1.voiceClones = w.voiceClones ∧
        (deleteVoice fault w voiceId).1.audioMessages = w.audioMessages) ∧
    (∀ (env : CloneEnv) (body : CloneBody) (file : Option StagedFile),
      (cloneVoice env w body file).2.isFailure = true →
        (cloneVoice env w body file).1.audioMessages = w.audioMessages ∧
        ((∀ V, env.voicesAdd ≠ .ok V) →
          (cloneVoice env w body file).1.voiceClones = w.voiceClones)) := by
  refine ⟨?_, ?_, ?_⟩
  · intro env req hfail
    cases hv : req.voiceId with
    | none => simp [generateMessage, hv]
    | some v =>
      cases hm : req.messageText with
      | none => simp [generateMessage, hv, hm]
      | some m =>
        by_cases hcond : (v == "" || m == "") = true
        · simp [generateMessage, hv, hm, hcond]
        · cases hp : env.textToSpeech with
          | error e => simp [generateMessage, hv, hm, hcond, hp, generateMessageCatch, consoleError]
          | ok data =>
            cases hw : env.writeFault with
            | some e =>
              simp [generateMessage, hv, hm, hcond, hp, hw, writeFileSync, dateNow,
                generateMessageCatch, consoleError]
            | none =>
              cases hq : env.toDataURL (req.protocol ++ "://" ++ req.host.getD "undefined"
                  ++ "/uploads/" ++ messageFileName (clock w.ticks)) with
              | error e =>
                simp [generateMessage, hv, hm, hcond, hp, hw, writeFileSync, dateNow, hq,
                  generateMessageCatch, consoleError]
              | ok qr =>
                simp [generateMessage, hv, hm, hcond, hp, hw, writeFileSync, dateNow, hq,
                  Response.isFailure] at hfail
  · intro fault voiceId hfail
    cases fault with
    | some e => simp [deleteVoice, consoleError]
    | none => simp [deleteVoice, Response.isFailure] at hfail
  · intro env body file _
    cases file with
    | none => simp [cloneVoice]
    | some audioFile =>
      cases hd : body.doctorName with
      | none => simp [cloneVoice, hd]
      | some d =>
        by_cases hd' : d = ""
        · simp [cloneVoice, hd, hd']
        · cases hp : env.voicesAdd with
          | error e => simp [cloneVoice, hd, hd', hp, cloneVoiceCatch, consoleError]
          | ok V =>
            refine ⟨?_, fun hV => absurd rfl (hV V)⟩
            simp only [cloneVoice, hd, hp]
            simp only [beq_iff_eq, hd', if_false]
            cases hu : unlinkSync env.unlinkFault _ audioFile.path with
            | error e => simp [cloneVoiceCatch, consoleError]
            | ok w3 => simp [(unlinkSync_ok hu).2.1]

/-! ## The handlers are their stretches run one after the other -/

theorem cloneVoice_stretches (env : CloneEnv) (w : World) (body : CloneBody)
    (file : Option StagedFile) :
    (∀ response, (cloneVoiceBegin w body file).2 = .inl response →
        cloneVoice env w body file = ((cloneVoiceBegin w body file).1, response)) ∧
      (∀ task, (cloneVoiceBegin w body file).2 = .inr task →
        ∃ doctorName description audioFile,
          task = .voicesAdd doctorName description audioFile ∧
            cloneVoice env w body file
              = cloneVoiceResume env.voicesAdd env.unlinkFault env.now
                  (cloneVoiceBegin w body file).1 doctorName description audioFile) := by
  cases file with
  | none => simp [cloneVoice, cloneVoiceBegin]
  | some audioFile =>
    cases hd : body.doctorName with
    | none => simp [cloneVoice, cloneVoiceBegin, hd]
    | some d =>
      by_cases hd' : d = ""
      · simp [cloneVoice, cloneVoiceBegin, hd, hd']
      · simp only [cloneVoice, cloneVoiceBegin, hd, beq_iff_eq, hd', if_false]
        refine ⟨by simp, ?_⟩
        intro task htask
        simp only [Sum.inr.injEq] at htask
        subst htask
        refine ⟨d, orElse body.description "Doctor voice clone", audioFile, rfl, ?_⟩
        simp only [cloneVoiceResume]

theorem generateMessage_stretches (clock : Nat → Nat) (env : GenerateEnv) (w : World)
    (req : GenerateRequest) :
    (∀ response, (generateMessageBegin w req).2 = .inl response →
        generateMessage clock env w req = ((generateMessageBegin w req).1, response)) ∧
      (∀ voiceId messageText,
        (generateMessageBegin w req).2 = .inr (.textToSpeech req voiceId messageText) →
        (∀ response,
          (generateMessageSpeech clock env.textToSpeech env.writeFault
              (generateMessageBegin w req).1 req voiceId messageText).2 = .inl response →
          generateMessage clock env w req
            = ((generateMessageSpeech clock env.textToSpeech env.writeFault
                (generateMessageBegin w req).1 req voiceId messageText).1, response)) ∧
        (∀ audioFileName audioUrl,
          (generateMessageSpeech clock env.textToSpeech env.writeFault
              (generateMessageBegin w req).1 req voiceId messageText).2
            = .inr (.toDataURL req voiceId messageText audioFileName audioUrl) →
          generateMessage clock env w req
            = generateMessageEncoded clock (env.toDataURL audioUrl) env.now
                (generateMessageSpeech clock env.textToSpeech env.writeFault
                  (generateMessageBegin w req).1 req voiceId messageText).1
                req voiceId messageText audioFileName audioUrl)) := by
  cases hv : req.voiceId with
  | none => simp [generateMessage, generateMessageBegin, hv]
  | some v =>
    cases hm : req.messageText with
    | none => simp [generateMessage, generateMessageBegin, hv, hm]
    | some m =>
      by_cases hcond : (v == "" || m == "") = true
      · simp [generateMessage, generateMessageBegin, hv, hm, hcond]
      · simp only [generateMessage, generateMessageBegin, hv, hm, hcond]
        refine ⟨by simp, ?_⟩
        intro voiceId messageText htask
        simp only [Bool.false_eq_true, if_false, Sum.inr.injEq, Suspended.textToSpeech.injEq,
          true_and] at htask
        obtain ⟨rfl, rfl⟩ := htask
        simp only [Bool.false_eq_true, if_false, generateMessageSpeech]
        cases env.textToSpeech with
        | error e => simp
        | ok data =>
          cases hw : env.writeFault with
          | some e => simp [writeFileSync, dateNow]
          | none =>
            simp only [writeFileSync, dateNow, generateMessageEncoded]
            refine ⟨by simp, ?_⟩
            intro audioFileName audioUrl hnext
            simp only [Sum.inr.injEq, Suspended.toDataURL.injEq, true_and] at hnext
            obtain ⟨rfl, rfl⟩ := hnext
            cases env.toDataURL _ <;> rfl

theorem deleteVoice_stretches (fault : Option JsError) (w : World) (voiceId : String) :
    deleteVoice fault w voiceId = deleteVoiceResume fault (deleteVoiceBegin w voiceId).1 voiceId ∧
      (deleteVoiceBegin w voiceId).2 = .voicesDelete voiceId := by
  cases fault <;> exact ⟨rfl, rfl⟩

/-! ## Decimal rendering of a clock reading -/

theorem digitValue_digitChar (d : Nat) (h : d < 10) : digitValue (Nat.digitChar d) = d := by
  interval_cases d <;> rfl

theorem decodeDigits_snoc (cs : List Char) (c : Char) :
    decodeDigits (cs ++ [c]) = decodeDigits cs * 10 + digitValue c := by
  simp [decodeDigits, List.foldl_append]

theorem toDigitsCore_decode (fuel : Nat) :
    ∀ (n : Nat) (ds : List Char), n < fuel →
      ∃ front, Nat.toDigitsCore 10 fuel n ds = front ++ ds ∧ decodeDigits front = n := by
  induction fuel with
  | zero => intro n ds h; omega
  | succ fuel ih =>
    intro n ds h
    by_cases hq : n / 10 = 0
    · refine ⟨[Nat.digitChar (n % 10)], ?_, ?_⟩
      · simp [Nat.toDigitsCore, hq]
      · have hlt : n % 10 < 10 := Nat.mod_lt _ (by decide)
        simp only [decodeDigits, List.foldl, digitValue_digitChar _ hlt]
        omega
    · have hlt : n / 10 < fuel := by omega
      obtain ⟨front, hfront, hdecode⟩ := ih (n / 10) (Nat.digitChar (n % 10) :: ds) hlt
      refine ⟨front ++ [Nat.digitChar (n % 10)], ?_, ?_⟩
      · simp [Nat.toDigitsCore, hq, hfront]
      · have hmod : n % 10 < 10 := Nat.mod_lt _ (by decide)
        rw [decodeDigits_snoc, hdecode, digitValue_digitChar _ hmod]
        omega

theorem decodeDigits_toString (n : Nat) : decodeDigits (toString n).data = n := by
  obtain ⟨front, hfront, hdecode⟩ := toDigitsCore_decode (n + 1) n [] (Nat.lt_succ_self n)
  have hrepr : (toString n).data = Nat.toDigits 10 n := rfl
  rw [hrepr, Nat.toDigits, hfront, List.append_nil, hdecode]

theorem toString_nat_injective : Function.Injective (fun n : Nat => toString n) := by
  intro a b hab
  have h := congrArg (fun s : String => decodeDigits s.data) hab
  simpa [decodeDigits_toString] using h

theorem messageFileName_injective : Function.Injective messageFileName := by
  intro a b hab
  have hdata := congrArg String.data hab
  simp only [messageFileName, String.data_append, List.append_assoc] at hdata
  have h1 := List.append_cancel_left hdata
  have h2 := List.append_cancel_right h1
  exact toString_nat_injective (String.ext h2)

theorem messagePath_injective :
    Function.Injective (fun t : Nat => pathJoin uploadsDir (messageFileName t)) := by
  intro a b hab
  have hdata := congrArg String.data hab
  simp only [pathJoin, String.data_append] at hdata
  exact messageFileName_injective (String.ext (List.append_cancel_left hdata))

/-! ## What a stretch of handler code does to the messages, the written paths and the clock -/

theorem stepEffect_of_same {clock : Nat → Nat} {w r : World} (ht : w.ticks ≤ r.ticks)
    (hm : r.audioMessages = w.audioMessages) (hw : r.written = w.written) :
    StepEffect clock w r :=
  ⟨ht, Or.inl hm, Or.inl hw⟩

theorem cloneVoiceBegin_same (w : World) (body : CloneBody) (file : Option StagedFile) :
    (cloneVoiceBegin w body file).1.ticks = w.ticks ∧
      (cloneVoiceBegin w body file).1.audioMessages = w.audioMessages ∧
      (cloneVoiceBegin w body file).1.written = w.written ∧
      (cloneVoiceBegin w body file).1.voiceClones = w.voiceClones := by
  cases file with
  | none => simp [cloneVoiceBegin]
  | some audioFile =>
    cases hd : body.doctorName with
    | none => simp [cloneVoiceBegin, hd]
    | some d => by_cases hd' : d = "" <;> simp [cloneVoiceBegin, hd, hd']

theorem cloneVoiceResume_same (result : Except JsError String) (unlinkFault : Option JsError)
    (now : Nat) (w : World) (doctorName description : String) (audioFile : StagedFile) :
    (cloneVoiceResume result unlinkFault now w doctorName description audioFile).1.ticks
        = w.ticks ∧
      (cloneVoiceResume result unlinkFault now w doctorName description
        audioFile).1.audioMessages = w.audioMessages ∧
      (cloneVoiceResume result unlinkFault now w doctorName description audioFile).1.written
        = w.written := by
  cases result with
  | error e => simp [cloneVoiceResume, cloneVoiceCatch, consoleError]
  | ok V =>
    simp only [cloneVoiceResume]
    cases hu : unlinkSync unlinkFault _ audioFile.path with
    | error e => simp [cloneVoiceCatch, consoleError]
    | ok w3 =>
      have h3 := unlinkSync_ok hu
      simp [h3.2.1, h3.2.2.1, h3.2.2.2.1]

theorem generateMessageBegin_same (w : World) (req : GenerateRequest) :
    (generateMessageBegin w req).1.ticks = w.ticks ∧
      (generateMessageBegin w req).1.audioMessages = w.audioMessages ∧
      (generateMessageBegin w req).1.written = w.written ∧
      (generateMessageBegin w req).1.voiceClones = w.voiceClones := by
  cases hv : req.voiceId with
  | none => simp [generateMessageBegin, hv]
  | some v =>
    cases hm : req.messageText with
    | none => simp [generateMessageBegin, hv, hm]
    | some m =>
      by_cases hcond : (v == "" || m == "") = true <;> simp [generateMessageBegin, hv, hm, hcond]

theorem generateMessageSpeech_effect (clock : Nat → Nat) (result : Except JsError (List Nat))
    (writeFault : Option JsError) (w : World) (req : GenerateRequest)
    (voiceId messageText : String) :
    StepEffect clock w
        (generateMessageSpeech clock result writeFault w req voiceId messageText).1 ∧
      (generateMessageSpeech clock result writeFault w req voiceId messageText).1.voiceClones
        = w.voiceClones := by
  cases result with
  | error e =>
    refine ⟨stepEffect_of_same ?_ ?_ ?_, ?_⟩ <;>
      simp [generateMessageSpeech, generateMessageCatch, consoleError]
  | ok data =>
    cases writeFault with
    | some e =>
      refine ⟨stepEffect_of_same ?_ ?_ ?_, ?_⟩ <;>
        simp [generateMessageSpeech, writeFileSync, dateNow, generateMessageCatch, consoleError]
    | none =>
      refine ⟨⟨?_, Or.inl ?_, Or.inr ⟨w.ticks, ?_, le_refl _, ?_⟩⟩, ?_⟩ <;>
        simp [generateMessageSpeech, writeFileSync, dateNow]

theorem generateMessageEncoded_effect (clock : Nat → Nat) (result : Except JsError String)
    (now : Nat) (w : World) (req : GenerateRequest)
    (voiceId messageText audioFileName audioUrl : String) :
    StepEffect clock w
        (generateMessageEncoded clock result now w req voiceId messageText audioFileName
          audioUrl).1 ∧
      (generateMessageEncoded clock result now w req voiceId messageText audioFileName
        audioUrl).1.voiceClones = w.voiceClones := by
  cases result with
  | error e =>
    refine ⟨stepEffect_of_same ?_ ?_ ?_, ?_⟩ <;>
      simp [generateMessageEncoded, generateMessageCatch, consoleError]
  | ok qr =>
    refine ⟨⟨?_, Or.inr ⟨⟨clock w.ticks, voiceId, findVoiceName w.voiceClones voiceId,
        messageText, orElse req.patientName "Patient", audioFileName, audioUrl, qr, now⟩,
        w.ticks, ?_, rfl, le_refl _, ?_⟩, Or.inl ?_⟩, ?_⟩ <;>
      simp [generateMessageEncoded, dateNow]

theorem deleteVoiceResume_same (fault : Option JsError) (w : World) (voiceId : String) :
    (deleteVoiceResume fault w voiceId).1.ticks = w.ticks ∧
      (deleteVoiceResume fault w voiceId).1.audioMessages = w.audioMessages ∧
      (deleteVoiceResume fault w voiceId).1.written = w.written := by
  cases fault <;> simp [deleteVoiceResume, consoleError]

theorem resume_effect {clock : Nat → Nat} {w : World} {task : Suspended}
    {settlement : Settlement} {r : World × Sum Response Suspended}
    (h : resume clock w task settlement = some r) : StepEffect clock w r.1 := by
  cases task with
  | voicesAdd doctorName description audioFile =>
    cases settlement <;> simp only [resume, Option.some.injEq, reduceCtorEq] at h
    subst h
    have hsame := cloneVoiceResume_same ‹_› ‹_› ‹_› w doctorName description audioFile
    exact stepEffect_of_same (le_of_eq hsame.1.symm) hsame.2.1 hsame.2.2
  | textToSpeech req voiceId messageText =>
    cases settlement <;> simp only [resume, Option.some.injEq, reduceCtorEq] at h
    subst h
    exact (generateMessageSpeech_effect clock _ _ w req voiceId messageText).1
  | toDataURL req voiceId messageText audioFileName audioUrl =>
    cases settlement <;> simp only [resume, Option.some.injEq, reduceCtorEq] at h
    subst h
    exact (generateMessageEncoded_effect clock _ _ w req voiceId messageText audioFileName
      audioUrl).1
  | voicesDelete voiceId =>
    cases settlement <;> simp only [resume, Option.some.injEq, reduceCtorEq] at h
    subst h
    have hsame := deleteVoiceResume_same ‹_› w voiceId
    exact stepEffect_of_same (le_of_eq hsame.1.symm) hsame.2.1 hsame.2.2

theorem suspend_world (rest : List Suspended) (r : World × Sum Response Suspended) :
    (suspend rest r).world = r.1 := by
  obtain ⟨w, next⟩ := r
  cases next <;> rfl

theorem suspend_mem {rest : List Suspended} {r : World × Sum Response Suspended}
    {task : Suspended} (h : task ∈ (suspend rest r).suspended) :
    task ∈ rest ∨ r.2 = .inr task := by
  obtain ⟨w, next⟩ := r
  cases next with
  | inl response => exact Or.inl h
  | inr other =>
    have hmem : task ∈ rest ++ [other] := h
    rcases List.mem_append.mp hmem with hrest | hnew
    · exact Or.inl hrest
    · rw [List.mem_singleton] at hnew
      exact Or.inr (by rw [hnew])

theorem uploadSingle_same (clock : Nat → Nat) (w : World) (part : Option UploadPart) :
    w.ticks ≤ (uploadSingle clock w part).1.ticks ∧
      (uploadSingle clock w part).1.audioMessages = w.audioMessages ∧
      (uploadSingle clock w part).1.written = w.written ∧
      (uploadSingle clock w part).1.voiceClones = w.voiceClones := by
  cases part with
  | none => simp [uploadSingle]
  | some file =>
    by_cases hmime : startsWith file.mimetype "audio/" = true <;>
      simp [uploadSingle, hmime, dateNow]

theorem step_effect (clock : Nat → Nat) (p : Process) (event : Event) :
    StepEffect clock p.world (step clock p event).world := by
  cases event with
  | getIndex => exact stepEffect_of_same (le_refl _) rfl rfl
  | getMessages => exact stepEffect_of_same (le_refl _) rfl rfl
  | cloneVoice body part =>
    have hup := uploadSingle_same clock p.world part
    simp only [step]
    rcases hres : uploadSingle clock p.world part with ⟨w1, outcome⟩
    rw [hres] at hup
    cases outcome with
    | error e =>
      refine stepEffect_of_same ?_ ?_ ?_
      · simpa [errorMiddleware, apply_ite] using hup.1
      · simpa [errorMiddleware, apply_ite] using hup.2.1
      · simpa [errorMiddleware, apply_ite] using hup.2.2.1
    | ok file =>
      simp only [suspend_world]
      have hb := cloneVoiceBegin_same w1 body file
      refine stepEffect_of_same ?_ ?_ ?_
      · rw [hb.1]; exact hup.1
      · rw [hb.2.1]; exact hup.2.1
      · rw [hb.2.2.1]; exact hup.2.2.1
  | generateMessage req =>
    simp only [step, suspend_world]
    have hb := generateMessageBegin_same p.world req
    exact stepEffect_of_same (le_of_eq hb.1.symm) hb.2.1 hb.2.2.1
  | deleteVoice voiceId => exact stepEffect_of_same (le_refl _) rfl rfl
  | settle k settlement =>
    cases hk : p.suspended[k]? with
    | none =>
      simp only [step, hk]
      exact stepEffect_of_same (le_refl _) rfl rfl
    | some task =>
      cases hr : resume clock p.world task settlement with
      | none =>
        simp only [step, hk, hr]
        exact stepEffect_of_same (le_refl _) rfl rfl
      | some r =>
        simp only [step, hk, hr, suspend_world]
        exact resume_effect hr

theorem idsInvariant_step {clock : Nat → Nat} (hclock : StrictMono clock) {w r : World}
    (heffect : StepEffect clock w r) (hinv : IdsInvariant clock w) : IdsInvariant clock r := by
  obtain ⟨hticks, hmessages, _⟩ := heffect
  obtain ⟨hsorted, hread⟩ := hinv
  rcases hmessages with hsame | ⟨m, i, happend, hid, hlow, hhigh⟩
  · rw [IdsInvariant, hsame]
    refine ⟨hsorted, fun m hm => ?_⟩
    obtain ⟨i, hi, hmi⟩ := hread m hm
    exact ⟨i, lt_of_lt_of_le hi hticks, hmi⟩
  · rw [IdsInvariant, happend]
    constructor
    · rw [List.map_append, List.pairwise_append]
      refine ⟨hsorted, by simp, ?_⟩
      intro a ha b hb
      simp only [List.map_cons, List.map_nil, List.mem_singleton] at hb
      obtain ⟨earlier, hearlier, rfl⟩ := List.mem_map.mp ha
      obtain ⟨j, hj, hmj⟩ := hread earlier hearlier
      rw [hb, hid, hmj]
      exact hclock (lt_of_lt_of_le hj hlow)
    · intro m' hm'
      rcases List.mem_append.mp hm' with hold | hnew
      · obtain ⟨j, hj, hmj⟩ := hread m' hold
        exact ⟨j, lt_of_lt_of_le hj hticks, hmj⟩
      · rw [List.mem_singleton] at hnew
        subst hnew
        exact ⟨i, hhigh, hid⟩

theorem writtenInvariant_step {clock : Nat → Nat} {w r : World}
    (heffect : StepEffect clock w r) (hinv : WrittenInvariant clock w) :
    WrittenInvariant clock r := by
  obtain ⟨hticks, _, hwritten⟩ := heffect
  obtain ⟨readings, hmap, hsorted, hbound⟩ := hinv
  rcases hwritten with hsame | ⟨i, happend, hlow, hhigh⟩
  · exact ⟨readings, by rw [hsame, hmap], hsorted,
      fun j hj => lt_of_lt_of_le (hbound j hj) hticks⟩
  · refine ⟨readings ++ [i], by rw [happend, hmap]; simp, ?_, ?_⟩
    · rw [List.pairwise_append]
      refine ⟨hsorted, by simp, ?_⟩
      intro a ha b hb
      rw [List.mem_singleton] at hb
      rw [hb]
      exact lt_of_lt_of_le (hbound a ha) hlow
    · intro j hj
      rcases List.mem_append.mp hj with hold | hnew
      · exact lt_of_lt_of_le (hbound j hold) hticks
      · rw [List.mem_singleton] at hnew
        rw [hnew]
        exact hhigh

/-! ## Invariants of the process -/

theorem run_append (clock : Nat → Nat) (p : Process) (events : List Event) (event : Event) :
    run clock p (events ++ [event]) = step clock (run clock p events) event := by
  simp [run, List.foldl_append]

theorem idsInvariant_run {clock : Nat → Nat} (hclock : StrictMono clock) (events : List Event) :
    IdsInvariant clock (run clock Process.init events).world := by
  induction events using List.reverseRecOn with
  | nil => exact ⟨by simp [run, Process.init, World.init], by simp [run, Process.init, World.init]⟩
  | append_singleton events event ih =>
    rw [run_append]
    exact idsInvariant_step hclock (step_effect clock _ event) ih

theorem writtenInvariant_run (clock : Nat → Nat) (events : List Event) :
    WrittenInvariant clock (run clock Process.init events).world := by
  induction events using List.reverseRecOn with
  | nil => exact ⟨[], by simp [run, Process.init, World.init], by simp, by simp⟩
  | append_singleton events event ih =>
    rw [run_append]
    exact writtenInvariant_step (step_effect clock _ event) ih

theorem written_nodup_of_invariant {clock : Nat → Nat} (hclock : StrictMono clock) {w : World}
    (hinv : WrittenInvariant clock w) : w.written.Nodup := by
  obtain ⟨readings, hmap, hsorted, _⟩ := hinv
  rw [hmap]
  refine List.Nodup.map ?_ ?_
  · intro a b hab
    exact hclock.injective (messagePath_injective hab)
  · exact hsorted.imp (fun h => ne_of_lt h)

/-! ## Ids of generated messages -/

/-- C8: with a clock whose readings strictly increase, in every state the
process reaches from its start, whatever the order in which requests arrive
and awaited calls settle, any two entries of `audioMessages` at different
positions have different ids, and the ids increase along the list. -/
theorem audioMessage_ids_distinct (clock : Nat → Nat) (hclock : StrictMono clock)
    (events : List Event) :
    (run clock Process.init events).world.audioMessages.Pairwise (fun a b => a.id ≠ b.id) ∧
      ((run clock Process.init events).world.audioMessages.map (fun m => m.id)).Nodup ∧
      (run clock Process.init events).world.audioMessages.Pairwise
        (fun a b => a.id < b.id) := by
  have hsorted := (idsInvariant_run hclock events).1
  refine ⟨?_, ?_, ?_⟩
  · rw [List.pairwise_map] at hsorted
    exact hsorted.imp (fun h => ne_of_lt h)
  · exact hsorted.imp (fun h => ne_of_lt h)
  · rw [List.pairwise_map] at hsorted
    exact hsorted

/-- C8, as stated, fails: with a clock that returns the same millisecond twice
(a non-decreasing sequence of readings) two GenerateMessage requests that
succeed one after the other record two messages with the same id. -/
theorem audioMessage_ids_collide :
    Monotone frozenClock ∧
      (run frozenClock Process.init twoGenerations).world.audioMessages.map (fun m => m.id)
        = [1000, 1000] ∧
      ¬ (run frozenClock Process.init twoGenerations).world.audioMessages.Pairwise
          (fun a b => a.id ≠ b.id) := by
  refine ⟨monotone_const, by decide, by decide⟩

/-! ## File names of generated audio -/

theorem generateMessageSpeech_files (clock : Nat → Nat) (result : Except JsError (List Nat))
    (writeFault : Option JsError) (w : World) (req : GenerateRequest)
    (voiceId messageText : String) :
    ((generateMessageSpeech clock result writeFault w req voiceId messageText).1.written
          = w.written ∧
        (generateMessageSpeech clock result writeFault w req voiceId messageText).1.files
          = w.files) ∨
      ∃ data,
        (generateMessageSpeech clock result writeFault w req voiceId messageText).1.written
            = w.written ++ [pathJoin uploadsDir (messageFileName (clock w.ticks))] ∧
          (generateMessageSpeech clock result writeFault w req voiceId messageText).1.files
            = w.files.filter
                (fun f => !(f.1 == pathJoin uploadsDir (messageFileName (clock w.ticks))))
              ++ [(pathJoin uploadsDir (messageFileName (clock w.ticks)), data)] := by
  cases result with
  | error e => left; simp [generateMessageSpeech, generateMessageCatch, consoleError]
  | ok data =>
    cases writeFault with
    | some e =>
      left
      simp [generateMessageSpeech, writeFileSync, dateNow, generateMessageCatch, consoleError]
    | none =>
      right
      exact ⟨data, by simp [generateMessageSpeech, writeFileSync, dateNow]⟩

/-- C9: with a clock whose readings strictly increase, in every state the
process reaches from its start, whatever the order in which requests arrive
and awaited calls settle, the paths written by GenerateMessage are pairwise
different; the stretch of GenerateMessage that writes the audio writes it under
a path no earlier generation wrote, and leaves what every earlier path holds
as it was. -/
theorem generated_file_names_fresh (clock : Nat → Nat) (hclock : StrictMono clock)
    (events : List Event) (result : Except JsError (List Nat)) (writeFault : Option JsError)
    (req : GenerateRequest) (voiceId messageText : String) :
    (run clock Process.init events).world.written.Nodup ∧
      (∀ path,
        (generateMessageSpeech clock result writeFault (run clock Process.init events).world
            req voiceId messageText).1.written
          = (run clock Process.init events).world.written ++ [path] →
        path ∉ (run clock Process.init events).world.written) ∧
      (∀ earlier ∈ (run clock Process.init events).world.written,
        (generateMessageSpeech clock result writeFault (run clock Process.init events).world
            req voiceId messageText).1.files.filter (fun f => f.1 == earlier)
          = (run clock Process.init events).world.files.filter (fun f => f.1 == earlier)) := by
  have hinv := writtenInvariant_run clock events
  have hbefore := written_nodup_of_invariant hclock hinv
  have hafter := written_nodup_of_invariant hclock
    (writtenInvariant_step (generateMessageSpeech_effect clock result writeFault
      (run clock Process.init events).world req voiceId messageText).1 hinv)
  have hfresh : ∀ path,
      (generateMessageSpeech clock result writeFault (run clock Process.init events).world
          req voiceId messageText).1.written
        = (run clock Process.init events).world.written ++ [path] →
      path ∉ (run clock Process.init events).world.written := by
    intro path hpath hmem
    rw [hpath] at hafter
    exact (List.nodup_append.mp hafter).2.2 hmem (List.mem_singleton_self path)
  refine ⟨hbefore, hfresh, ?_⟩
  intro earlier hearlier
  rcases generateMessageSpeech_files clock result writeFault
      (run clock Process.init events).world req voiceId messageText with
    ⟨_, hfiles⟩ | ⟨data, hwritten, hfiles⟩
  · rw [hfiles]
  · have hne : earlier ≠ pathJoin uploadsDir
        (messageFileName (clock (run clock Process.init events).world.ticks)) := by
      intro heq
      exact hfresh _ hwritten (heq ▸ hearlier)
    rw [hfiles, List.filter_append, List.filter_filter]
    have hlast : List.filter (fun f : String × List Nat => f.1 == earlier)
        [(pathJoin uploadsDir
          (messageFileName (clock (run clock Process.init events).world.ticks)), data)]
        = [] := by
      have hfalse : (pathJoin uploadsDir
          (messageFileName (clock (run clock Process.init events).world.ticks))
            == earlier) = false := by
        simpa using Ne.symm hne
      simp [List.filter, hfalse]
    rw [hlast, List.append_nil]
    apply List.filter_congr
    intro f _
    by_cases hf : f.1 = earlier
    · simp [hf, hne]
    · simp [hf]

/-- C9, as stated, fails: with a clock that returns the same millisecond twice
(a non-decreasing sequence of readings) the second of two GenerateMessage
requests served one after the other writes under the path of the first and
replaces its audio. -/
theorem generated_file_names_collide :
    Monotone frozenClock ∧
      (run frozenClock Process.init (twoGenerations.take 3)).world.files
        = [("public/uploads/message-1000.mp3", [73, 68, 51])] ∧
      (run frozenClock Process.init twoGenerations).world.files
        = [("public/uploads/message-1000.mp3", [1, 2, 3])] ∧
      (run frozenClock Process.init twoGenerations).world.written
        = ["public/uploads/message-1000.mp3", "public/uploads/message-1000.mp3"] ∧
      ¬ (run frozenClock Process.init twoGenerations).world.written.Nodup := by
  refine ⟨monotone_const, by decide, by decide, by decide, by decide⟩

/-! ## Names in the registry -/

theorem cloneVoiceBegin_task {w : World} {body : CloneBody} {file : Option StagedFile}
    {doctorName description : String} {audioFile : StagedFile}
    (h : (cloneVoiceBegin w body file).2 = .inr (.voicesAdd doctorName description audioFile)) :
    doctorName ≠ "" := by
  cases file with
  | none => simp [cloneVoiceBegin] at h
  | some staged =>
    cases hd : body.doctorName with
    | none => simp [cloneVoiceBegin, hd] at h
    | some d =>
      by_cases hd' : d = ""
      · simp [cloneVoiceBegin, hd, hd'] at h
      · simp [cloneVoiceBegin, hd, hd'] at h
        rw [← h.1]
        exact hd'

theorem generateMessageBegin_task {w : World} {req : GenerateRequest}
    {doctorName description : String} {audioFile : StagedFile} :
    (generateMessageBegin w req).2 ≠ .inr (.voicesAdd doctorName description audioFile) := by
  cases hv : req.voiceId with
  | none => simp [generateMessageBegin, hv]
  | some v =>
    cases hm : req.messageText with
    | none => simp [generateMessageBegin, hv, hm]
    | some m =>
      by_cases hcond : (v == "" || m == "") = true <;> simp [generateMessageBegin, hv, hm, hcond]

theorem cloneVoiceResume_names (result : Except JsError String) (unlinkFault : Option JsError)
    (now : Nat) (w : World) (doctorName description : String) (audioFile : StagedFile)
    (hname : doctorName ≠ "") (hnames : ∀ voice ∈ w.voiceClones, voice.name ≠ "") :
    ∀ voice ∈ (cloneVoiceResume result unlinkFault now w doctorName description
      audioFile).1.voiceClones, voice.name ≠ "" := by
  have hpushed : ∀ V : String, ∀ voice ∈ w.voiceClones ++
      [(⟨V, doctorName, description, audioFile.filename, now⟩ : VoiceClone)],
      voice.name ≠ "" := by
    intro V voice hvoice
    rcases List.mem_append.mp hvoice with hold | hnew
    · exact hnames voice hold
    · rw [List.mem_singleton] at hnew
      rw [hnew]
      exact hname
  cases result with
  | error e => simpa [cloneVoiceResume, cloneVoiceCatch, consoleError] using hnames
  | ok V =>
    simp only [cloneVoiceResume]
    cases hu : unlinkSync unlinkFault _ audioFile.path with
    | error e => simpa [cloneVoiceCatch, consoleError] using hpushed V
    | ok w3 =>
      have h3 := (unlinkSync_ok hu).1
      simp only [h3]
      exact hpushed V

theorem resume_names {clock : Nat → Nat} {w : World} {task : Suspended}
    {settlement : Settlement} {r : World × Sum Response Suspended}
    (h : resume clock w task settlement = some r)
    (hnames : ∀ voice ∈ w.voiceClones, voice.name ≠ "")
    (htask : ∀ doctorName description audioFile,
      task = .voicesAdd doctorName description audioFile → doctorName ≠ "") :
    (∀ voice ∈ r.1.voiceClones, voice.name ≠ "") ∧
      ∀ doctorName description audioFile,
        r.2 ≠ .inr (.voicesAdd doctorName description audioFile) := by
  cases task with
  | voicesAdd doctorName description audioFile =>
    cases settlement <;> simp only [resume, Option.some.injEq, reduceCtorEq] at h
    subst h
    exact ⟨cloneVoiceResume_names _ _ _ w doctorName description audioFile
      (htask _ _ _ rfl) hnames, by simp⟩
  | textToSpeech req voiceId messageText =>
    cases settlement with
    | textToSpeech result writeFault =>
      simp only [resume, Option.some.injEq] at h
      subst h
      refine ⟨?_, ?_⟩
      · rw [(generateMessageSpeech_effect clock result writeFault w req voiceId messageText).2]
        exact hnames
      · intro doctorName description audioFile
        cases result with
        | error e => simp [generateMessageSpeech]
        | ok data => cases writeFault <;> simp [generateMessageSpeech, writeFileSync, dateNow]
    | voicesAdd _ _ _ => simp [resume] at h
    | toDataURL _ _ => simp [resume] at h
    | voicesDelete _ => simp [resume] at h
  | toDataURL req voiceId messageText audioFileName audioUrl =>
    cases settlement <;> simp only [resume, Option.some.injEq, reduceCtorEq] at h
    subst h
    refine ⟨?_, by simp⟩
    simp only
    rw [(generateMessageEncoded_effect clock _ _ w req voiceId messageText audioFileName
      audioUrl).2]
    exact hnames
  | voicesDelete voiceId =>
    cases settlement with
    | voicesDelete fault =>
      simp only [resume, Option.some.injEq] at h
      subst h
      refine ⟨?_, by simp⟩
      cases fault with
      | some e => exact hnames
      | none =>
        intro voice hvoice
        have hmem : voice ∈ w.voiceClones.filter (fun voice => voice.id != voiceId) := hvoice
        exact hnames voice (List.mem_filter.mp hmem).1
    | voicesAdd _ _ _ => simp [resume] at h
    | toDataURL _ _ => simp [resume] at h
    | textToSpeech _ _ => simp [resume] at h

theorem namesInvariant_step (clock : Nat → Nat) (p : Process) (event : Event)
    (hinv : NamesInvariant p) : NamesInvariant (step clock p event) := by
  obtain ⟨hnames, htasks⟩ := hinv
  cases event with
  | getIndex => exact ⟨hnames, htasks⟩
  | getMessages => exact ⟨hnames, htasks⟩
  | cloneVoice body part =>
    have hup := (uploadSingle_same clock p.world part).2.2.2
    simp only [step]
    rcases hres : uploadSingle clock p.world part with ⟨w1, outcome⟩
    rw [hres] at hup
    simp only at hup
    cases outcome with
    | error e =>
      refine ⟨?_, htasks⟩
      have hworld : (errorMiddleware w1 e).1 = w1 := by
        simp only [errorMiddleware]
        split <;> rfl
      simp only [hworld, hup]
      exact hnames
    | ok file =>
      refine ⟨?_, ?_⟩
      · rw [suspend_world, (cloneVoiceBegin_same w1 body file).2.2.2, hup]
        exact hnames
      · intro doctorName description audioFile hmem
        rcases suspend_mem hmem with hold | hnew
        · exact htasks _ _ _ hold
        · exact cloneVoiceBegin_task hnew
  | generateMessage req =>
    refine ⟨?_, ?_⟩
    · simp only [step]
      rw [suspend_world, (generateMessageBegin_same p.world req).2.2.2]
      exact hnames
    · intro doctorName description audioFile hmem
      rcases suspend_mem hmem with hold | hnew
      · exact htasks _ _ _ hold
      · exact absurd hnew generateMessageBegin_task
  | deleteVoice voiceId =>
    refine ⟨hnames, ?_⟩
    intro doctorName description audioFile hmem
    have hmem' : Suspended.voicesAdd doctorName description audioFile
        ∈ p.suspended ++ [Suspended.voicesDelete voiceId] := hmem
    rcases List.mem_append.mp hmem' with hold | hnew
    · exact htasks _ _ _ hold
    · simp at hnew
  | settle k settlement =>
    cases hk : p.suspended[k]? with
    | none =>
      simp only [step, hk]
      exact ⟨hnames, htasks⟩
    | some task =>
      cases hr : resume clock p.world task settlement with
      | none =>
        simp only [step, hk, hr]
        exact ⟨hnames, htasks⟩
      | some r =>
        simp only [step, hk, hr]
        have htask : ∀ doctorName description audioFile,
            task = .voicesAdd doctorName description audioFile → doctorName ≠ "" := by
          intro doctorName description audioFile heq
          exact htasks doctorName description audioFile (heq ▸ List.getElem?_mem hk)
        obtain ⟨hworld, hnext⟩ := resume_names hr hnames htask
        refine ⟨?_, ?_⟩
        · rw [suspend_world]
          exact hworld
        · intro doctorName description audioFile hmem
          rcases suspend_mem hmem with hold | hnew
          · exact htasks _ _ _ (List.mem_of_mem_eraseIdx hold)
          · exact absurd hnew (hnext _ _ _)

/-- In every state the process reaches from its start, every entry of
`voiceClones` has a non-empty name. -/
theorem run_names (clock : Nat → Nat) (events : List Event) :
    ∀ voice ∈ (run clock Process.init events).world.voiceClones, voice.name ≠ "" := by
  have hinv : NamesInvariant (run clock Process.init events) := by
    induction events using List.reverseRecOn with
    | nil => exact ⟨by simp [run, Process.init, World.init], by simp [run, Process.init]⟩
    | append_singleton events event ih =>
      rw [run_append]
      exact namesInvariant_step clock _ event ih
  exact hinv.1

/-! ## Instances on concrete requests -/

theorem tickingClock_strictMono : StrictMono tickingClock := by
  intro a b hab
  simp only [tickingClock]
  omega

/-- The validation answer of CloneVoice on an empty `doctorName`. -/
theorem cloneVoice_missing_input_witness :
    (cloneVoice ⟨.ok "v1", none, 0⟩ World.init ⟨some "", none⟩ (some wavStaged)).2
        = .renderIndex World.init.voiceClones (some ⟨.error, cloneMissingInput⟩) ∧
      (cloneVoice ⟨.ok "v1", none, 0⟩ World.init ⟨some "", none⟩ (some wavStaged)).1
        = World.init ∧
      (cloneVoice ⟨.ok "v1", none, 0⟩ World.init ⟨some "", none⟩
        (some wavStaged)).1.voiceClones = World.init.voiceClones ∧
      (cloneVoice ⟨.ok "v1", none, 0⟩ World.init ⟨some "", none⟩
        (some wavStaged)).1.providerCalls = World.init.providerCalls :=
  cloneVoice_missing_input ⟨.ok "v1", none, 0⟩ World.init ⟨some "", none⟩ (some wavStaged)
    (Or.inr (Or.inl rfl))

/-- Scenario C of the specification: an empty `voiceId`. -/
theorem generateMessage_missing_input_witness :
    (generateMessage tickingClock generateOk World.init
        ⟨some "", some "Hello", none, "http", some "localhost:3000"⟩).2
      = .renderIndex World.init.voiceClones (some ⟨.error, generateMissingInput⟩) ∧
    (generateMessage tickingClock generateOk World.init
        ⟨some "", some "Hello", none, "http", some "localhost:3000"⟩).1.audioMessages
      = World.init.audioMessages :=
  have h := generateMessage_missing_input tickingClock generateOk World.init
    ⟨some "", some "Hello", none, "http", some "localhost:3000"⟩ (Or.inr (Or.inl rfl))
  ⟨h.1, h.2.2.1⟩

/-- Scenario A of the specification: the default description is applied. -/
theorem cloneVoice_appends_witness :
    (cloneVoice ⟨.ok "v1", none, 0⟩ World.init smithBody (some wavStaged)).1.voiceClones
      = World.init.voiceClones ++
        [⟨"v1", "Dr. Smith",
          if smithBody.description = none ∨ smithBody.description = some ""
          then "Doctor voice clone" else smithBody.description.getD "",
          wavStaged.filename, 0⟩] ∧
    (if smithBody.description = none ∨ smithBody.description = some ""
      then "Doctor voice clone" else smithBody.description.getD "") = "Doctor voice clone" :=
  ⟨(cloneVoice_appends ⟨.ok "v1", none, 0⟩ World.init smithBody (some wavStaged)
    "Dr. Smith" "v1" wavStaged rfl (by decide) rfl rfl).1, by decide⟩

/-- Scenario B of the specification: the name of the voice of Scenario A is found. -/
theorem findVoiceName_witness :
    (∀ voice ∈ [(⟨"v1", "Dr. Smith", "Doctor voice clone", "1000-a.wav", 0⟩ : VoiceClone)],
        voice.name ≠ "") ∧
      findVoiceName [⟨"v1", "Dr. Smith", "Doctor voice clone", "1000-a.wav", 0⟩] "v1"
        = "Dr. Smith" :=
  ⟨by decide,
    (findVoiceName_first_or_unknown
      [⟨"v1", "Dr. Smith", "Doctor voice clone", "1000-a.wav", 0⟩] "v1" (by decide)).1
      [] ⟨"v1", "Dr. Smith", "Doctor voice clone", "1000-a.wav", 0⟩ [] rfl (by simp) rfl⟩

/-- Two overlapping generations under a clock that advances get different ids. -/
theorem audioMessage_ids_distinct_witness :
    StrictMono tickingClock ∧
      (run tickingClock Process.init overlappingGenerations).world.audioMessages.Pairwise
        (fun a b => a.id ≠ b.id) ∧
      (run tickingClock Process.init overlappingGenerations).world.audioMessages.map
        (fun m => m.id) = [1002, 1003] :=
  ⟨tickingClock_strictMono,
    (audioMessage_ids_distinct tickingClock tickingClock_strictMono overlappingGenerations).1,
    by decide⟩

/-- Two overlapping generations under a clock that advances write two
different paths. -/
theorem generated_file_names_fresh_witness :
    StrictMono tickingClock ∧
      (run tickingClock Process.init overlappingGenerations).world.written.Nodup ∧
      (run tickingClock Process.init overlappingGenerations).world.written
        = ["public/uploads/message-1000.mp3", "public/uploads/message-1001.mp3"] :=
  ⟨tickingClock_strictMono,
    (generated_file_names_fresh tickingClock tickingClock_strictMono overlappingGenerations
      (.ok [73, 68, 51]) none tabletsRequest "v1" "Take two tablets daily.").1,
    by decide⟩

/-- The response of CloneVoice to a provider error on the request of Scenario A. -/
theorem provider_failure_response_generic_witness :
    truthy smithBody.doctorName = true ∧ (some wavStaged).isSome = true ∧
      (cloneVoice ⟨.error providerError, none, 0⟩ World.init smithBody (some wavStaged)).2
        = .renderIndex World.init.voiceClones (some ⟨.error, cloneFailed⟩) :=
  ⟨by decide, rfl,
    ((provider_failure_response_generic tickingClock World.init providerError
      permissionError).1 none 0 smithBody (some wavStaged)).2 (by decide) rfl⟩

end DoctorVoiceClone
